import Mathlib

/-!
Shallow embedding of the RS-DOS (Disk Extended Color BASIC) on-disk-format
engine from `fuse_rsdos` (files `rsdosfs.py` and `writablefs.py`), together
with theorems settling the specification claims about it.

The backing image is modelled as a byte store: a total size plus a byte
function (`os.pread` on a file of that size).  Machine bytes are `Nat`s;
every operation that can raise in Python returns `Except PyError`.
Generators are modelled by `GenResult`: the list of values the generator
yields before it either finishes (`error = none`) or raises
(`error = some e`).
-/

/-- Geometry constants (`class Geometry` in `rsdosfs.py`). -/
def sectors_per_track : Nat := 18

def sectors_per_granule : Nat := 9

def bytes_per_sector : Nat := 256

def directory_track : Nat := 17

def directory_sectors : Nat := 9

def max_granules : Nat := 192

def directory_entry_size : Nat := 32

def max_directory_entries : Nat :=
  directory_sectors * bytes_per_sector / directory_entry_size

/-- The Python exceptions the engine can raise.  `fuelExhausted` is an
artifact of the bounded modelling of the `while True` loop in
`iter_granules`; it is proved unreachable. -/
inductive PyError where
  | recoverableCorruption (msg : String)
  | filesystemFatalError (msg : String)
  | diskFullError
  | nameError (n : String)
  | assertionError
  | typeError (msg : String)
  | indexError (msg : String)
  | valueError (msg : String)
  | structError
  | fuelExhausted
deriving DecidableEq, Repr

deriving instance DecidableEq for Except

/-- The backing byte store: a file (or block device) of `size` bytes whose
byte at offset `o` is `byteAt o`. -/
structure Image where
  size : Nat
  byteAt : Nat → Nat

/-- `RSDOSFilesystem.pread`: `os.pread(fd, length, offset)` followed by
`assert len(data) == length`; a read reaching past end-of-file returns a
short result, so the assert raises `AssertionError`. -/
def pread (img : Image) (length offset : Nat) : Except PyError (List Nat) :=
  if offset + length ≤ img.size then
    .ok ((List.range length).map fun i => img.byteAt (offset + i))
  else
    .error .assertionError

/-- `RSDOSFilesystem.sector_count` (the `OddSizeWarning` is a non-fatal
diagnostic and is not modelled). -/
def sector_count (img : Image) : Except PyError Nat :=
  let n_sectors := img.size / bytes_per_sector
  if n_sectors < (directory_track + 1) * sectors_per_track then
    .error (.filesystemFatalError "filesystem is smaller than the minimum size")
  else
    .ok n_sectors

/-- `RSDOSFilesystem.granule_count`. -/
def granule_count (img : Image) : Except PyError Nat :=
  match sector_count img with
  | .error e => .error e
  | .ok sc => .ok ((sc - sectors_per_track) / sectors_per_granule)

/-- `RSDOSFilesystem.sector_range_linear` (0-based sector numbering). -/
def sector_range_linear (n count : Nat) : Nat × Nat :=
  (n * bytes_per_sector, n * bytes_per_sector + bytes_per_sector * count)

/-- `RSDOSFilesystem.sector_range` (1-based sector numbering, validated).
The Python check `0 <= cyl` is vacuous for the `Nat` cylinder index. -/
def sector_range (cyl secnr count : Nat) : Except PyError (Nat × Nat) :=
  if secnr < 1 ∨ sectors_per_track < secnr then
    .error (.indexError "sector number out of range")
  else if sectors_per_track - (secnr - 1) < count then
    .error (.indexError "sector count out of range")
  else
    .ok (sector_range_linear (cyl * sectors_per_track + (secnr - 1)) count)

/-- `RSDOSFilesystem.granule_range_sectors`: the two sector indices
bounding a granule, skipping over the directory track (track 17). -/
def granule_range_sectors (granule : Nat) : Nat × Nat :=
  let sec_start := granule * sectors_per_granule
  let sec_end := (granule + 1) * sectors_per_granule
  if directory_track * sectors_per_track ≤ sec_start then
    (sec_start + sectors_per_track, sec_end + sectors_per_track)
  else
    (sec_start, sec_end)

/-- `RSDOSFilesystem.directory_entry_range`. -/
def directory_entry_range (n : Nat) : Except PyError (Nat × Nat) :=
  match sector_range directory_track 3 directory_sectors with
  | .error e => .error e
  | .ok (d_start, d_end) =>
    let dent_start := d_start + n * directory_entry_size
    let dent_end := dent_start + directory_entry_size
    if d_start ≤ dent_start ∧ dent_start < d_end ∧ d_start ≤ dent_end ∧ dent_end ≤ d_end then
      .ok (dent_start, dent_end)
    else
      .error (.indexError "directory entry out of range")

/-- `RSDOSFilesystem.granule_map_range`. -/
def granule_map_range (img : Image) : Except PyError (Nat × Nat) :=
  match sector_range directory_track 2 1 with
  | .error e => .error e
  | .ok (s, _) =>
    match granule_count img with
    | .error e => .error e
    | .ok gc => .ok (s, s + min gc max_granules)

/-- `RSDOSFilesystem.read_granule_map`. -/
def read_granule_map (img : Image) : Except PyError (List Nat) :=
  match granule_map_range img with
  | .error e => .error e
  | .ok (s, e) => pread img (e - s) s

/-- `RSDOSFilesystem.read_directory_entry`. -/
def read_directory_entry (img : Image) (n : Nat) : Except PyError (List Nat) :=
  match directory_entry_range n with
  | .error e => .error e
  | .ok (s, e) => pread img (e - s) s

/-- `RSDOSFilesystem.read_granule`. -/
def read_granule (img : Image) (n : Nat) : Except PyError (List Nat) :=
  match granule_map_range img with
  | .error e => .error e
  | .ok (gs, ge) =>
    if gs ≤ gs + n ∧ gs + n < ge ∧ gs + n + 1 ≤ ge then
      pread img 1 (gs + n)
    else
      .error (.indexError "granule number out of range")

/-- `GranuleInfo` (the `geom` field of the Python dataclass is the constant
geometry and is omitted). -/
structure GranuleInfo where
  raw_value : Nat
  n : Nat
  next_n : Option Nat
  sectors_used : Nat
  bytes_used : Nat
  last : Bool
  free : Bool
deriving DecidableEq, Repr

/-- `GranuleInfo.fromraw`.  `bytes([raw_value])` raises `ValueError` for a
value outside a byte's range; the Python `assert sectors_used <= 9` and
`assert last_sector_bytes_used == 0` raise `AssertionError`. -/
def GranuleInfo.fromraw (n b last_sector_bytes_used : Nat) :
    Except PyError GranuleInfo :=
  if 256 ≤ b then
    .error (.valueError "bytes must be in range(0, 256)")
  else if b < 0xc0 then
    .ok ⟨b, n, some b, sectors_per_granule, sectors_per_granule * bytes_per_sector,
         false, false⟩
  else if b ≤ 0xc9 then
    -- `sectors_used = b & 0xf` in the source
    if sectors_per_granule < b &&& 0xf then
      .error .assertionError
    else if b &&& 0xf = 0 then
      if last_sector_bytes_used = 0 then
        .ok ⟨b, n, none, b &&& 0xf, 0, true, false⟩
      else
        .error .assertionError
    else
      .ok ⟨b, n, none, b &&& 0xf,
           ((b &&& 0xf) - 1) * bytes_per_sector + last_sector_bytes_used,
           true, false⟩
  else if b = 0xff then
    .ok ⟨b, n, none, 0, 0, true, true⟩
  else
    .error (.recoverableCorruption
      ("granule #" ++ toString n ++ " corrupt: value " ++ toString b ++ " out of range"))

/-- `DirectoryEntry` (the Python field `_reserved` is named `reserved`). -/
structure DirectoryEntry where
  n : Nat
  filename : List Nat
  extension : List Nat
  filetype : Nat
  ascii_flag : Nat
  first_granule : Nat
  last_sector_bytes_used : Nat
  reserved : List Nat
  free : Bool
  null : Bool
deriving DecidableEq, Repr

/-- `DirectoryEntry.fromraw`: `struct.unpack("!8s3sBBBH16s", raw)` raises
for a buffer that is not exactly 32 bytes; `null` is `set(raw) == {0}` and
`free` is `filename[0] == 0 or set(filename) == {0xff}`. -/
def DirectoryEntry.fromraw (n : Nat) (raw : List Nat) :
    Except PyError DirectoryEntry :=
  if raw.length ≠ 32 then
    .error .structError
  else
    let filename := raw.take 8
    .ok ⟨n, filename, (raw.drop 8).take 3, raw.getD 11 0, raw.getD 12 0,
         raw.getD 13 0, raw.getD 14 0 * 256 + raw.getD 15 0, raw.drop 16,
         (raw.getD 0 1 == 0) || filename.all (· == 0xff),
         raw.all (· == 0)⟩

/-- The trace of a Python generator: the values it yielded, and the
exception it raised (if it did not finish normally). -/
structure GenResult (α : Type) where
  yielded : List α
  error : Option PyError
deriving DecidableEq, Repr

/-- Length of the granule map (zero when `granule_map_range` raises). -/
def gmapLen (img : Image) : Nat :=
  match granule_map_range img with
  | .ok (s, e) => e - s
  | .error _ => 0

/-- One iteration head of `RSDOSFilesystem.iter_granules`: read the map
byte for granule `n` (a one-byte buffer) and decode it. -/
def granuleStep (img : Image) (lsbu n : Nat) : Except PyError GranuleInfo :=
  match read_granule img n with
  | .error e => .error e
  | .ok raw => GranuleInfo.fromraw n (raw.headD 0) lsbu

/-- The `while True` loop of `RSDOSFilesystem.iter_granules`: yield the
decoded entry, record the granule in the visited set, stop on a terminal
entry, and raise on a revisited granule number.  The loop is bounded by
fuel; `fuelExhausted` is proved unreachable for the fuel used by
`iter_granules`. -/
def granuleChainGo (img : Image) (lsbu : Nat) :
    Nat → List Nat → Nat → GenResult GranuleInfo
  | 0, _, _ => ⟨[], some .fuelExhausted⟩
  | fuel + 1, seen, n =>
    match granuleStep img lsbu n with
    | .error e => ⟨[], some e⟩
    | .ok gi =>
      if gi.last then
        ⟨[gi], none⟩
      else
        -- for a non-terminal entry `fromraw` always sets `next_n = some b`
        if gi.next_n.getD 0 ∈ n :: seen then
          ⟨[gi], some (.recoverableCorruption "loop in granule map")⟩
        else
          let r := granuleChainGo img lsbu fuel (n :: seen) (gi.next_n.getD 0)
          ⟨gi :: r.yielded, r.error⟩

/-- `RSDOSFilesystem.iter_granules`. -/
def iter_granules (img : Image) (first_granule lsbu : Nat) : GenResult GranuleInfo :=
  granuleChainGo img lsbu (gmapLen img + 1) [] first_granule

/-- `RSDOSFilesystem.iter_dentry_granules`. -/
def iter_dentry_granules (img : Image) (d : DirectoryEntry) : GenResult GranuleInfo :=
  iter_granules img d.first_granule d.last_sector_bytes_used

/-- The loop of `RSDOSFilesystem.count_granules` over the raw map bytes
(`last_sector_bytes_used` is passed as `bytes_per_sector` there). -/
def countGmap : List Nat → Nat → Nat → Nat → Nat → Except PyError (Nat × Nat × Nat)
  | [], _, total, free, used => .ok (total, free, used)
  | c :: rest, i, total, free, used =>
    match GranuleInfo.fromraw i c bytes_per_sector with
    | .error e => .error e
    | .ok gi =>
      if gi.free then countGmap rest (i + 1) (total + 1) (free + 1) used
      else countGmap rest (i + 1) (total + 1) free (used + 1)

/-- `RSDOSFilesystem.count_granules`. -/
def count_granules (img : Image) : Except PyError (Nat × Nat × Nat) :=
  match read_granule_map img with
  | .error e => .error e
  | .ok gmap => countGmap gmap 0 0 0 0

/-- One slot of `RSDOSFilesystem.iter_directory_entries`: read the raw
32 bytes of slot `i` and decode them. -/
def dirStep (img : Image) (i : Nat) : Except PyError DirectoryEntry :=
  match read_directory_entry img i with
  | .error e => .error e
  | .ok raw => DirectoryEntry.fromraw i raw

/-- The loop of `RSDOSFilesystem.iter_directory_entries` from slot `i`,
with `fuel` slots left to scan: skip `null` slots unconditionally and
`free` slots unless `include_free`, else yield. -/
def dirGo (img : Image) (include_free : Bool) : Nat → Nat → GenResult DirectoryEntry
  | 0, _ => ⟨[], none⟩
  | fuel + 1, i =>
    match dirStep img i with
    | .error e => ⟨[], some e⟩
    | .ok dentry =>
      if dentry.null then
        dirGo img include_free fuel (i + 1)
      else if dentry.free && !include_free then
        dirGo img include_free fuel (i + 1)
      else
        let r := dirGo img include_free fuel (i + 1)
        ⟨dentry :: r.yielded, r.error⟩

/-- `RSDOSFilesystem.iter_directory_entries`. -/
def iter_directory_entries (img : Image) (include_free : Bool) : GenResult DirectoryEntry :=
  dirGo img include_free max_directory_entries 0

/-- `RSDOSFilesystem.count_directory_entries`. -/
def count_directory_entries (img : Image) : Except PyError (Nat × Nat × Nat) :=
  let r := iter_directory_entries img true
  match r.error with
  | some e => .error e
  | none =>
    .ok (r.yielded.length, (r.yielded.filter (fun d => d.free)).length,
         (r.yielded.filter (fun d => !d.free)).length)

/-- The content read inside `RSDOSFilesystem.iter_file_contents`:
`sec_start, sec_end = self.granule_range_sectors(gi.n)`,
`start, end = self.sector_range_linear(sec_start, gi.sectors_used)`,
`data = self.pread(end - start, start)`. -/
def granuleData (img : Image) (gi : GranuleInfo) : Except PyError (List Nat) :=
  pread img ((sector_range_linear (granule_range_sectors gi.n).1 gi.sectors_used).2 -
      (sector_range_linear (granule_range_sectors gi.n).1 gi.sectors_used).1)
    (sector_range_linear (granule_range_sectors gi.n).1 gi.sectors_used).1

/-- The loop body of `RSDOSFilesystem.iter_file_contents` over the granules
the chain generator yields, statement by statement: `assert not gi.free`;
skip when `gi.n < g0`; read the granule's used sectors (`granuleData`);
truncate to `bytes_used`; trim the leading `b0` bytes when `gi.n == g0`;
truncate to the remaining byte budget; yield; then
`bytes_remaining -= len(data)` (a `TypeError` when `length` was `None`). -/
def fileChunks (img : Image) (g0 b0 : Nat) :
    Option Nat → List GranuleInfo → GenResult (List Nat)
  | _, [] => ⟨[], none⟩
  | br, gi :: rest =>
    if gi.free then
      ⟨[], some .assertionError⟩
    else if gi.n < g0 then
      fileChunks img g0 b0 br rest
    else
      match granuleData img gi with
      | .error e => ⟨[], some e⟩
      | .ok data0 =>
        let data1 := data0.take gi.bytes_used
        let data2 := if gi.n = g0 then data1.drop b0 else data1
        match br with
        | none => ⟨[data2], some (.typeError "unsupported operand types for -=")⟩
        | some r =>
          let data3 := if r < data2.length then data2.take r else data2
          let rest' := fileChunks img g0 b0 (some (r - data3.length)) rest
          ⟨data3 :: rest'.yielded, rest'.error⟩

/-- `RSDOSFilesystem.iter_file_contents`.  The chain generator's own
exception surfaces when the loop asks it for the granule after its last
yield, i.e. only if the loop body did not raise first. -/
def iter_file_contents (img : Image) (d : DirectoryEntry) (length : Option Nat)
    (offset : Nat) : GenResult (List Nat) :=
  let g0 := offset / (bytes_per_sector * sectors_per_granule)
  let b0 := offset % (bytes_per_sector * sectors_per_granule)
  let chain := iter_dentry_granules img d
  let r := fileChunks img g0 b0 length chain.yielded
  match r.error with
  | some e => ⟨r.yielded, some e⟩
  | none => ⟨r.yielded, chain.error⟩

/-- `RSDOSFilesystem.pread_file`. -/
def pread_file (img : Image) (d : DirectoryEntry) (length : Option Nat)
    (offset : Nat) : Except PyError (List Nat) :=
  let r := iter_file_contents img d length offset
  match r.error with
  | some e => .error e
  | none => .ok r.yielded.flatten

/-- `RSDOSFilesystem.get_file_sizes`. -/
def get_file_sizes (img : Image) (d : DirectoryEntry) :
    Except PyError (Nat × Nat × Nat) :=
  let chain := iter_dentry_granules img d
  match chain.error with
  | some e => .error e
  | none =>
    .ok ((chain.yielded.map (fun gi => gi.bytes_used)).sum, bytes_per_sector,
         chain.yielded.length * sectors_per_granule)

/-- `FilesystemStats` (never actually constructed by `get_fs_stats`, see
below). -/
structure FilesystemStats where
  total_granule_count : Nat
  free_granule_count : Nat
  used_granule_count : Nat
  total_direntry_count : Nat
  free_direntry_count : Nat
  used_direntry_count : Nat
  size_in_granules : Nat
  stats_sectors_per_track : Nat
  stats_sectors_per_granule : Nat
  stats_bytes_per_sector : Nat
deriving DecidableEq, Repr

/-- `RSDOSFilesystem.get_fs_stats`.  The source computes the granule and
directory counts, then evaluates the constructor arguments; the argument
`size_in_granules=ceildiv(self.sector_count(), sectors_per_granule)`
evaluates `self.sector_count()` and then loads the name
`sectors_per_granule`, which is bound neither locally nor at module level
in `rsdosfs.py`, so Python raises `NameError` and the
`FilesystemStats` constructor is never reached. -/
def get_fs_stats (img : Image) : Except PyError FilesystemStats :=
  match count_granules img with
  | .error e => .error e
  | .ok _ =>
    match count_directory_entries img with
    | .error e => .error e
    | .ok _ =>
      match sector_count img with
      | .error e => .error e
      | .ok _ => .error (.nameError "sectors_per_granule")

/-- Whether an `Except` result is a success. -/
def exceptIsOk {α : Type} : Except PyError α → Bool
  | .ok _ => true
  | .error _ => false

/-- `WritableRSDOSFilesystem._write_new_file` (in `writablefs.py`): its
first statement is
`granules_needed = ceildiv(length, bytes_per_sector * sectors_per_granule)`.
The name `length` is assigned only in the caller `write_new_file`'s scope,
not in `_write_new_file` and not at module level, so evaluating the first
argument raises `NameError` before any state is touched. -/
def write_new_file_inner (_img : Image) (_filename _extension : List Nat)
    (_filetype _ascii_flag : Nat) (_content : List Nat) : Except PyError Image :=
  .error (.nameError "length")

/-- `WritableRSDOSFilesystem.write_new_file`: converts the content to
bytes, takes the lock and delegates to `_write_new_file`. -/
def write_new_file (img : Image) (filename extension : List Nat)
    (filetype ascii_flag : Nat) (content : List Nat) : Except PyError Image :=
  write_new_file_inner img filename extension filetype ascii_flag content

/-- A minimal valid image: 324 sectors (82944 bytes), every allocation-map
byte `0xFF` (all granules free), directory zeroed. -/
def imgStd : Image :=
  ⟨82944, fun off => if 78592 ≤ off ∧ off < 78626 then 255 else 0⟩

/-- A minimal image whose allocation map contains the cycle
`granule 5 → 9 → 5`. -/
def imgCyc : Image :=
  ⟨82944, fun off => if off = 78597 then 9 else if off = 78601 then 5 else 0⟩

/-- A minimal image whose map chains granule 0 (continuation to 1) to
granule 1, which is marked free (`0xFF`). -/
def imgFree : Image :=
  ⟨82944, fun off => if off = 78592 then 1 else if off = 78593 then 255 else 0⟩

/-- A minimal image with a single-granule file stored in granule 5
(map byte `0xC1`); every data byte reads as 65. -/
def imgSkew : Image :=
  ⟨82944, fun off => if off = 78597 then 193 else 65⟩

/-- A minimal image with a single-granule file stored in granule 0
(map byte `0xC1`); every data byte reads as 65. -/
def imgOrigin : Image :=
  ⟨82944, fun off => if off = 78592 then 193 else 65⟩

/-- A minimal image whose directory slot 0 holds filename `"A"` (65 then
seven spaces) with all other fields zero; all other slots are null. -/
def imgDir : Image :=
  ⟨82944, fun off =>
    if off = 78848 then 65 else if 78849 ≤ off ∧ off < 78856 then 32 else 0⟩

/-- Directory entry pointing at granule 5 with 100 bytes used in the last
sector. -/
def dSkew : DirectoryEntry := ⟨0, [84], [], 0, 0, 5, 100, [], false, false⟩

/-- Directory entry pointing at granule 0 with 5 bytes used in the last
sector. -/
def dOrigin : DirectoryEntry := ⟨0, [84], [], 0, 0, 0, 5, [], false, false⟩

/-- Directory entry pointing at granule 0 with 100 bytes used in the last
sector. -/
def dFree : DirectoryEntry := ⟨0, [84], [], 0, 0, 0, 100, [], false, false⟩

/-- The decoded entry of directory slot 0 of `imgDir`. -/
def dDir : DirectoryEntry :=
  ⟨0, [65, 32, 32, 32, 32, 32, 32, 32], [0, 0, 0], 0, 0, 0, 0,
   List.replicate 16 0, false, false⟩

/-- Characterization of every successful allocation-map decode. -/
theorem GranuleInfo.fromraw_ok {n b lsbu : Nat} {gi : GranuleInfo}
    (h : GranuleInfo.fromraw n b lsbu = .ok gi) :
    gi.n = n ∧ gi.raw_value = b ∧ b < 256 ∧ gi.sectors_used ≤ 9 ∧
    (gi.free = true → gi.last = true) ∧
    (gi.last = false → gi.sectors_used = 9 ∧ gi.bytes_used = 2304 ∧
      gi.free = false ∧ gi.next_n = some b) ∧
    (lsbu ≤ 256 → gi.bytes_used ≤ gi.sectors_used * 256) := by
  by_cases h1 : 256 ≤ b
  · simp [GranuleInfo.fromraw, h1] at h
  by_cases h2 : b < 192
  · simp only [GranuleInfo.fromraw, sectors_per_granule, bytes_per_sector, h1, h2,
      if_true, if_false, Except.ok.injEq, ite_true, ite_false, if_neg, if_pos] at h
    subst h
    exact ⟨rfl, rfl, by omega, by norm_num, by simp, fun _ => ⟨rfl, by norm_num, rfl, rfl⟩,
      fun _ => by norm_num⟩
  by_cases h3 : b ≤ 201
  · by_cases h4 : 9 < b &&& 15
    · simp [GranuleInfo.fromraw, sectors_per_granule, h1, h2, h3, h4] at h
    by_cases h5 : b &&& 15 = 0
    · by_cases h6 : lsbu = 0
      · norm_num [GranuleInfo.fromraw, sectors_per_granule, bytes_per_sector, h1, h2, h3,
          h5, h6] at h
        subst h
        exact ⟨rfl, rfl, by omega, by show (0:Nat) ≤ 9; omega, by simp, by simp,
          fun _ => by show (0:Nat) ≤ 0 * 256; omega⟩
      · simp [GranuleInfo.fromraw, sectors_per_granule, h1, h2, h3, h4, h5, h6] at h
    · simp only [GranuleInfo.fromraw, sectors_per_granule, bytes_per_sector, h1, h2, h3,
        h4, h5, if_true, if_false, ite_true, ite_false, Except.ok.injEq] at h
      subst h
      refine ⟨rfl, rfl, by omega, by show b &&& 15 ≤ 9; omega, by simp, by simp,
        fun hle => ?_⟩
      show ((b &&& 15) - 1) * 256 + lsbu ≤ (b &&& 15) * 256
      omega
  by_cases h7 : b = 255
  · subst h7
    norm_num [GranuleInfo.fromraw] at h
    subst h
    exact ⟨rfl, rfl, by omega, by norm_num, fun _ => rfl, by simp, fun _ => by norm_num⟩
  · simp [GranuleInfo.fromraw, h1, h2, h3, h7] at h

/-- The fixed sector range holding the granule map (track 17, sector 2). -/
theorem sector_range_gmap : sector_range directory_track 2 1 = .ok (78592, 78848) := by
  decide

/-- A failing `sector_count` can only raise `FilesystemFatalError`. -/
theorem sector_count_error {img : Image} {e : PyError}
    (h : sector_count img = .error e) :
    e = .filesystemFatalError "filesystem is smaller than the minimum size" := by
  have h' : (if img.size / bytes_per_sector < (directory_track + 1) * sectors_per_track
      then (Except.error (.filesystemFatalError
        "filesystem is smaller than the minimum size") : Except PyError Nat)
      else .ok (img.size / bytes_per_sector)) = .error e := h
  split_ifs at h'
  injection h' with h'
  exact h'.symm

/-- A successful `sector_count` reports the image's whole-sector count,
which is at least the minimum viable 324 sectors. -/
theorem sector_count_ok {img : Image} {sc : Nat} (h : sector_count img = .ok sc) :
    sc = img.size / 256 ∧ 324 ≤ sc := by
  have h' : (if img.size / 256 < (17 + 1) * 18
      then (Except.error (.filesystemFatalError
        "filesystem is smaller than the minimum size") : Except PyError Nat)
      else .ok (img.size / 256)) = .ok sc := h
  split_ifs at h' with hc
  injection h' with h'
  exact ⟨h'.symm, by omega⟩

/-- A failing `granule_count` can only raise `FilesystemFatalError`. -/
theorem granule_count_error {img : Image} {e : PyError}
    (h : granule_count img = .error e) :
    e = .filesystemFatalError "filesystem is smaller than the minimum size" := by
  unfold granule_count at h
  cases hs : sector_count img with
  | error e' => rw [hs] at h; injection h with h; exact h ▸ sector_count_error hs
  | ok sc => rw [hs] at h; exact absurd h (by simp)

/-- A successful `granule_count`. -/
theorem granule_count_ok {img : Image} {gc : Nat} (h : granule_count img = .ok gc) :
    ∃ sc, sector_count img = .ok sc ∧ gc = (sc - 18) / 9 := by
  unfold granule_count at h
  cases hs : sector_count img with
  | error e' => rw [hs] at h; exact absurd h (by simp)
  | ok sc =>
    rw [hs] at h
    injection h with h
    exact ⟨sc, rfl, by simp [← h, sectors_per_track, sectors_per_granule]⟩

/-- A successful `granule_map_range`. -/
theorem granule_map_range_ok {img : Image} {s e : Nat}
    (h : granule_map_range img = .ok (s, e)) :
    s = 78592 ∧ ∃ gc, granule_count img = .ok gc ∧ e = 78592 + min gc 192 := by
  unfold granule_map_range at h
  rw [sector_range_gmap] at h
  cases hg : granule_count img with
  | error e' => rw [hg] at h; exact absurd h (by simp)
  | ok gc =>
    rw [hg] at h
    injection h with h
    obtain ⟨hs, he⟩ := Prod.mk.injEq .. ▸ h
    exact ⟨hs.symm, gc, rfl, by simp [← he, max_granules]⟩

/-- A failing `granule_map_range` can only raise `FilesystemFatalError`. -/
theorem granule_map_range_error {img : Image} {e : PyError}
    (h : granule_map_range img = .error e) :
    e = .filesystemFatalError "filesystem is smaller than the minimum size" := by
  unfold granule_map_range at h
  rw [sector_range_gmap] at h
  cases hg : granule_count img with
  | error e' => rw [hg] at h; injection h with h; exact h ▸ granule_count_error hg
  | ok gc => rw [hg] at h; exact absurd h (by simp)

/-- `gmapLen` is the width of a successful `granule_map_range`. -/
theorem gmapLen_eq {img : Image} {s e : Nat}
    (h : granule_map_range img = .ok (s, e)) : gmapLen img = e - s := by
  unfold gmapLen
  rw [h]

/-- A successful one-granule map read pins the granule number below the
truncated map length. -/
theorem read_granule_ok_lt {img : Image} {n : Nat} {raw : List Nat}
    (h : read_granule img n = .ok raw) : n < gmapLen img := by
  unfold read_granule at h
  cases hr : granule_map_range img with
  | error e => rw [hr] at h; exact absurd h (by simp)
  | ok p =>
    obtain ⟨gs, ge⟩ := p
    rw [hr] at h
    have h' : (if gs ≤ gs + n ∧ gs + n < ge ∧ gs + n + 1 ≤ ge then pread img 1 (gs + n)
        else .error (.indexError "granule number out of range")) = .ok raw := h
    rw [gmapLen_eq hr]
    split_ifs at h' with hc
    omega

/-- A failing `pread` can only raise `AssertionError`. -/
theorem pread_error {img : Image} {len off : Nat} {e : PyError}
    (h : pread img len off = .error e) : e = .assertionError := by
  unfold pread at h
  split_ifs at h
  injection h with h
  exact h.symm

/-- A successful `pread`. -/
theorem pread_ok {img : Image} {len off : Nat} (h : off + len ≤ img.size) :
    pread img len off = .ok ((List.range len).map fun i => img.byteAt (off + i)) := by
  unfold pread
  rw [if_pos h]

/-- A successful `granuleStep` decodes the map byte of a granule number
that lies inside the truncated map. -/
theorem granuleStep_ok {img : Image} {lsbu n : Nat} {gi : GranuleInfo}
    (h : granuleStep img lsbu n = .ok gi) :
    gi.n = n ∧ n < gmapLen img ∧ ∃ b, GranuleInfo.fromraw n b lsbu = .ok gi := by
  unfold granuleStep at h
  cases hr : read_granule img n with
  | error e => rw [hr] at h; exact absurd h (by simp)
  | ok raw =>
    rw [hr] at h
    exact ⟨(GranuleInfo.fromraw_ok h).1, read_granule_ok_lt hr, raw.headD 0, h⟩

/-- `GranuleInfo.fromraw` never raises the artificial fuel marker. -/
theorem fromraw_ne_fuel {n b lsbu : Nat}
    (h : GranuleInfo.fromraw n b lsbu = .error .fuelExhausted) : False := by
  unfold GranuleInfo.fromraw at h
  split_ifs at h <;> simp at h

/-- `read_granule` never raises the artificial fuel marker. -/
theorem read_granule_ne_fuel {img : Image} {n : Nat}
    (h : read_granule img n = .error .fuelExhausted) : False := by
  unfold read_granule at h
  cases hr : granule_map_range img with
  | error e =>
    rw [hr] at h
    injection h with h
    have he := granule_map_range_error hr
    rw [he] at h
    exact PyError.noConfusion h
  | ok p =>
    obtain ⟨gs, ge⟩ := p
    rw [hr] at h
    have h' : (if gs ≤ gs + n ∧ gs + n < ge ∧ gs + n + 1 ≤ ge then pread img 1 (gs + n)
        else .error (.indexError "granule number out of range")) =
        .error .fuelExhausted := h
    split_ifs at h'
    · exact PyError.noConfusion (pread_error h')
    · injection h' with h'
      exact PyError.noConfusion h'

/-- `granuleStep` never raises the artificial fuel marker. -/
theorem granuleStep_ne_fuel {img : Image} {lsbu n : Nat}
    (h : granuleStep img lsbu n = .error .fuelExhausted) : False := by
  unfold granuleStep at h
  cases hr : read_granule img n with
  | error e =>
    rw [hr] at h
    injection h with h
    exact read_granule_ne_fuel (h ▸ hr)
  | ok raw =>
    rw [hr] at h
    exact fromraw_ne_fuel h

/-- One-step unfolding of the chain walker. -/
theorem granuleChainGo_succ (img : Image) (lsbu fuel : Nat) (seen : List Nat) (n : Nat) :
    granuleChainGo img lsbu (fuel + 1) seen n =
      match granuleStep img lsbu n with
      | .error e => ⟨[], some e⟩
      | .ok gi =>
        if gi.last then ⟨[gi], none⟩
        else if gi.next_n.getD 0 ∈ n :: seen then
          ⟨[gi], some (.recoverableCorruption "loop in granule map")⟩
        else
          ⟨gi :: (granuleChainGo img lsbu fuel (n :: seen) (gi.next_n.getD 0)).yielded,
           (granuleChainGo img lsbu fuel (n :: seen) (gi.next_n.getD 0)).error⟩ := rfl

/-- Every granule the walk yields was decoded by `granuleStep` from a
granule number inside the truncated map. -/
theorem chainGo_mem {img : Image} {lsbu : Nat} :
    ∀ (fuel : Nat) (seen : List Nat) (n : Nat) (gi : GranuleInfo),
      gi ∈ (granuleChainGo img lsbu fuel seen n).yielded →
      gi.n < gmapLen img ∧ ∃ b, GranuleInfo.fromraw gi.n b lsbu = .ok gi := by
  intro fuel
  induction fuel with
  | zero =>
    intro seen n gi hgi
    simp [granuleChainGo] at hgi
  | succ fuel ih =>
    intro seen n gi hgi
    rw [granuleChainGo_succ] at hgi
    cases hs : granuleStep img lsbu n with
    | error e => rw [hs] at hgi; simp at hgi
    | ok g0 =>
      rw [hs] at hgi
      obtain ⟨hn0, hlt0, b, hb⟩ := granuleStep_ok hs
      by_cases hl : g0.last
      · simp [hl] at hgi
        subst hgi
        exact ⟨hn0 ▸ hlt0, b, hn0 ▸ hb⟩
      · by_cases hm : g0.next_n.getD 0 ∈ n :: seen
        · simp [hl, hm] at hgi
          subst hgi
          exact ⟨hn0 ▸ hlt0, b, hn0 ▸ hb⟩
        · simp [hl, hm] at hgi
          rcases hgi with rfl | hgi
          · exact ⟨hn0 ▸ hlt0, b, hn0 ▸ hb⟩
          · exact ih _ _ _ hgi

/-- Appending an element to a nonempty list keeps its last element. -/
theorem getLast?_cons_some {α : Type} {l : List α} {a g : α}
    (h : l.getLast? = some g) : (a :: l).getLast? = some g := by
  cases l with
  | nil => simp at h
  | cons b t => rw [List.getLast?_cons_cons]; exact h

/-- Structure of a walk: if it finishes without raising, the yielded list
is a block of non-terminal entries followed by one terminal entry; and any
yielded terminal entry is the final element of a walk that raised
nothing. -/
theorem chainGo_last {img : Image} {lsbu : Nat} :
    ∀ (fuel : Nat) (seen : List Nat) (n : Nat),
      ((granuleChainGo img lsbu fuel seen n).error = none →
        ∃ ys g, (granuleChainGo img lsbu fuel seen n).yielded = ys ++ [g] ∧
          g.last = true ∧ ∀ x ∈ ys, x.last = false) ∧
      (∀ g ∈ (granuleChainGo img lsbu fuel seen n).yielded, g.last = true →
        (granuleChainGo img lsbu fuel seen n).error = none ∧
        (granuleChainGo img lsbu fuel seen n).yielded.getLast? = some g) := by
  intro fuel
  induction fuel with
  | zero =>
    intro seen n
    exact ⟨fun h => by simp [granuleChainGo] at h,
      fun g hg => by simp [granuleChainGo] at hg⟩
  | succ fuel ih =>
    intro seen n
    cases hs : granuleStep img lsbu n with
    | error e =>
      have hres : granuleChainGo img lsbu (fuel + 1) seen n = ⟨[], some e⟩ := by
        rw [granuleChainGo_succ, hs]
      rw [hres]
      exact ⟨fun h => by simp at h, fun g hg => by simp at hg⟩
    | ok g0 =>
      by_cases hl : g0.last
      · have hres : granuleChainGo img lsbu (fuel + 1) seen n = ⟨[g0], none⟩ := by
          rw [granuleChainGo_succ, hs]
          simp [hl]
        rw [hres]
        refine ⟨fun _ => ⟨[], g0, by simp, hl, by simp⟩, fun g hg hgl => ?_⟩
        simp only [List.mem_singleton] at hg
        subst hg
        exact ⟨by simp, by simp⟩
      · by_cases hm : g0.next_n.getD 0 ∈ n :: seen
        · have hres : granuleChainGo img lsbu (fuel + 1) seen n =
              ⟨[g0], some (.recoverableCorruption "loop in granule map")⟩ := by
            rw [granuleChainGo_succ, hs]
            simp [hl, hm]
          rw [hres]
          refine ⟨fun h => by simp at h, fun g hg hgl => ?_⟩
          simp only [List.mem_singleton] at hg
          subst hg
          exact absurd hgl (by simpa using hl)
        · have hres : granuleChainGo img lsbu (fuel + 1) seen n =
              ⟨g0 :: (granuleChainGo img lsbu fuel (n :: seen) (g0.next_n.getD 0)).yielded,
               (granuleChainGo img lsbu fuel (n :: seen) (g0.next_n.getD 0)).error⟩ := by
            rw [granuleChainGo_succ, hs]
            simp [hl, hm]
          rw [hres]
          obtain ⟨ihA, ihB⟩ := ih (n :: seen) (g0.next_n.getD 0)
          constructor
          · intro h
            simp only at h
            obtain ⟨ys, g, hys, hg, hns⟩ := ihA h
            refine ⟨g0 :: ys, g, by simp [hys], hg, ?_⟩
            intro x hx
            rcases List.mem_cons.mp hx with rfl | hx
            · simpa using hl
            · exact hns x hx
          · intro g hg hgl
            simp only [List.mem_cons] at hg
            rcases hg with rfl | hg
            · exact absurd hgl (by simpa using hl)
            · obtain ⟨he, hlast⟩ := ihB g hg hgl
              exact ⟨he, getLast?_cons_some hlast⟩

/-- A duplicate-free list of numbers all below `k` has at most `k`
elements. -/
theorem nodup_lt_length_le {l : List Nat} {k : Nat} (hnd : l.Nodup)
    (hlt : ∀ m ∈ l, m < k) : l.length ≤ k := by
  have hsub : l.toFinset ⊆ Finset.range k := by
    intro x hx
    exact Finset.mem_range.mpr (hlt x (List.mem_toFinset.mp hx))
  have := Finset.card_le_card hsub
  rwa [List.toFinset_card_of_nodup hnd, Finset.card_range] at this

/-- The walk, started with enough fuel relative to the visited set, never
hits the artificial fuel bound, and the granule numbers it yields are
duplicate-free and disjoint from the visited set. -/
theorem chainGo_fuel {img : Image} {lsbu : Nat} :
    ∀ (fuel : Nat) (seen : List Nat) (n : Nat),
      seen.Nodup → (∀ m ∈ seen, m < gmapLen img) → n ∉ seen →
      gmapLen img + 1 ≤ fuel + seen.length →
      (granuleChainGo img lsbu fuel seen n).error ≠ some .fuelExhausted ∧
      ((granuleChainGo img lsbu fuel seen n).yielded.map (fun g => g.n)).Nodup ∧
      (∀ m ∈ (granuleChainGo img lsbu fuel seen n).yielded.map (fun g => g.n),
        m ∉ seen) := by
  intro fuel
  induction fuel with
  | zero =>
    intro seen n hnd hlt hns hfuel
    exfalso
    have := nodup_lt_length_le hnd hlt
    omega
  | succ fuel ih =>
    intro seen n hnd hlt hns hfuel
    cases hs : granuleStep img lsbu n with
    | error e =>
      have hres : granuleChainGo img lsbu (fuel + 1) seen n = ⟨[], some e⟩ := by
        rw [granuleChainGo_succ, hs]
      rw [hres]
      refine ⟨?_, by simp, by simp⟩
      intro hcontra
      simp only [Option.some.injEq] at hcontra
      exact granuleStep_ne_fuel (hcontra ▸ hs)
    | ok g0 =>
      obtain ⟨hn0, hlt0, -⟩ := granuleStep_ok hs
      by_cases hl : g0.last
      · have hres : granuleChainGo img lsbu (fuel + 1) seen n = ⟨[g0], none⟩ := by
          rw [granuleChainGo_succ, hs]
          simp [hl]
        rw [hres]
        refine ⟨by simp, by simp, ?_⟩
        intro m hm
        simp only [List.map_cons, List.map_nil, List.mem_singleton] at hm
        subst hm
        exact hn0 ▸ hns
      · by_cases hm : g0.next_n.getD 0 ∈ n :: seen
        · have hres : granuleChainGo img lsbu (fuel + 1) seen n =
              ⟨[g0], some (.recoverableCorruption "loop in granule map")⟩ := by
            rw [granuleChainGo_succ, hs]
            simp [hl, hm]
          rw [hres]
          refine ⟨by simp, by simp, ?_⟩
          intro m hmm
          simp only [List.map_cons, List.map_nil, List.mem_singleton] at hmm
          subst hmm
          exact hn0 ▸ hns
        · have hres : granuleChainGo img lsbu (fuel + 1) seen n =
              ⟨g0 :: (granuleChainGo img lsbu fuel (n :: seen) (g0.next_n.getD 0)).yielded,
               (granuleChainGo img lsbu fuel (n :: seen) (g0.next_n.getD 0)).error⟩ := by
            rw [granuleChainGo_succ, hs]
            simp [hl, hm]
          rw [hres]
          have hnd' : (n :: seen).Nodup := List.nodup_cons.mpr ⟨hns, hnd⟩
          have hlt' : ∀ m ∈ n :: seen, m < gmapLen img := by
            intro m hmm
            rcases List.mem_cons.mp hmm with rfl | hmm
            · exact hlt0
            · exact hlt m hmm
          have hfuel' : gmapLen img + 1 ≤ fuel + (n :: seen).length := by
            simp only [List.length_cons]
            omega
          obtain ⟨ihe, ihnd, ihmem⟩ := ih (n :: seen) (g0.next_n.getD 0) hnd' hlt' hm hfuel'
          refine ⟨by simpa using ihe, ?_, ?_⟩
          · simp only [List.map_cons]
            refine List.nodup_cons.mpr ⟨?_, ihnd⟩
            intro hcontra
            have := ihmem g0.n hcontra
            exact this (hn0 ▸ List.mem_cons_self n seen)
          · intro m hmm
            simp only [List.map_cons, List.mem_cons] at hmm
            rcases hmm with rfl | hmm
            · exact hn0 ▸ hns
            · exact fun hin => ihmem m hmm (List.mem_cons_of_mem n hin)

/-- An image with a nonempty truncated map is large enough to hold every
granule the map describes, directory-track skip included. -/
theorem gmapLen_bound {img : Image} (h : 0 < gmapLen img) :
    (9 * gmapLen img + 18) * 256 ≤ img.size := by
  unfold gmapLen at *
  cases hr : granule_map_range img with
  | error e =>
    rw [hr] at h
    have h' : (0 : Nat) < 0 := h
    omega
  | ok p =>
    obtain ⟨s, e⟩ := p
    rw [hr] at h
    have h' : 0 < e - s := h
    show (9 * (e - s) + 18) * 256 ≤ img.size
    obtain ⟨hs, gc, hgc, he⟩ := granule_map_range_ok hr
    obtain ⟨sc, hsc, hgcv⟩ := granule_count_ok hgc
    obtain ⟨hscv, hge⟩ := sector_count_ok hsc
    have hdm : (sc - 18) / 9 * 9 ≤ sc - 18 := Nat.div_mul_le_self _ _
    have hsz : img.size / 256 * 256 ≤ img.size := Nat.div_mul_le_self _ _
    have hmin : min gc 192 ≤ gc := Nat.min_le_left _ _
    omega

/-- Reading the used sectors of an in-map granule always succeeds. -/
theorem pread_granule_ok {img : Image} {n su : Nat} (hn : n < gmapLen img)
    (hsu : su ≤ 9) :
    pread img ((sector_range_linear (granule_range_sectors n).1 su).2 -
        (sector_range_linear (granule_range_sectors n).1 su).1)
      (sector_range_linear (granule_range_sectors n).1 su).1 =
      .ok ((List.range (256 * su)).map fun i =>
        img.byteAt ((granule_range_sectors n).1 * 256 + i)) := by
  have hb := gmapLen_bound (show 0 < gmapLen img by omega)
  have hstart : (granule_range_sectors n).1 + su ≤ 9 * gmapLen img + 18 := by
    unfold granule_range_sectors
    simp only [sectors_per_granule, directory_track, sectors_per_track]
    split_ifs with hc
    · show n * 9 + 18 + su ≤ 9 * gmapLen img + 18
      omega
    · show n * 9 + su ≤ 9 * gmapLen img + 18
      omega
  have hlen : (sector_range_linear (granule_range_sectors n).1 su).2 -
      (sector_range_linear (granule_range_sectors n).1 su).1 = 256 * su := by
    show (granule_range_sectors n).1 * bytes_per_sector + bytes_per_sector * su -
      (granule_range_sectors n).1 * bytes_per_sector = 256 * su
    simp only [bytes_per_sector]
    omega
  rw [hlen]
  have hin : (granule_range_sectors n).1 * 256 + 256 * su ≤ img.size := by
    omega
  show pread img (256 * su) ((granule_range_sectors n).1 * 256) = _
  exact pread_ok hin

/-- Reading the used sectors of an in-map granule always succeeds, as a
statement about `granuleData`. -/
theorem granuleData_ok {img : Image} {gi : GranuleInfo} (hn : gi.n < gmapLen img)
    (hsu : gi.sectors_used ≤ 9) :
    granuleData img gi = .ok ((List.range (256 * gi.sectors_used)).map fun i =>
      img.byteAt ((granule_range_sectors gi.n).1 * 256 + i)) :=
  pread_granule_ok hn hsu

/-- One-step unfolding of the reader loop. -/
theorem fileChunks_cons (img : Image) (g0 b0 : Nat) (br : Option Nat)
    (gi : GranuleInfo) (rest : List GranuleInfo) :
    fileChunks img g0 b0 br (gi :: rest) =
      if gi.free then ⟨[], some .assertionError⟩
      else if gi.n < g0 then fileChunks img g0 b0 br rest
      else
        match granuleData img gi with
        | .error e => ⟨[], some e⟩
        | .ok data0 =>
          let data1 := data0.take gi.bytes_used
          let data2 := if gi.n = g0 then data1.drop b0 else data1
          match br with
          | none => ⟨[data2], some (.typeError "unsupported operand types for -=")⟩
          | some r =>
            let data3 := if r < data2.length then data2.take r else data2
            let rest' := fileChunks img g0 b0 (some (r - data3.length)) rest
            ⟨data3 :: rest'.yielded, rest'.error⟩ := rfl

/-- With an integral byte budget, the reader never yields more bytes in
total than the budget. -/
theorem fileChunks_len {img : Image} {g0 b0 : Nat} :
    ∀ (gis : List GranuleInfo) (r : Nat),
      ((fileChunks img g0 b0 (some r) gis).yielded.map List.length).sum ≤ r := by
  intro gis
  induction gis with
  | nil => intro r; simp [fileChunks]
  | cons gi rest ih =>
    intro r
    by_cases hf : gi.free
    · have hres : fileChunks img g0 b0 (some r) (gi :: rest) =
          ⟨[], some .assertionError⟩ := by
        rw [fileChunks_cons]
        simp [hf]
      rw [hres]
      simp
    · by_cases hskip : gi.n < g0
      · have hres : fileChunks img g0 b0 (some r) (gi :: rest) =
            fileChunks img g0 b0 (some r) rest := by
          rw [fileChunks_cons]
          simp [hf, hskip]
        rw [hres]
        exact ih r
      · cases hp : granuleData img gi with
        | error e =>
          have hres : fileChunks img g0 b0 (some r) (gi :: rest) = ⟨[], some e⟩ := by
            rw [fileChunks_cons]
            simp [hf, hskip, hp]
          rw [hres]
          simp
        | ok data0 =>
          have hres : fileChunks img g0 b0 (some r) (gi :: rest) =
              ⟨(if r < (if gi.n = g0 then (data0.take gi.bytes_used).drop b0
                    else data0.take gi.bytes_used).length
                  then (if gi.n = g0 then (data0.take gi.bytes_used).drop b0
                    else data0.take gi.bytes_used).take r
                  else (if gi.n = g0 then (data0.take gi.bytes_used).drop b0
                    else data0.take gi.bytes_used)) ::
                (fileChunks img g0 b0 (some (r -
                  (if r < (if gi.n = g0 then (data0.take gi.bytes_used).drop b0
                      else data0.take gi.bytes_used).length
                    then (if gi.n = g0 then (data0.take gi.bytes_used).drop b0
                      else data0.take gi.bytes_used).take r
                    else (if gi.n = g0 then (data0.take gi.bytes_used).drop b0
                      else data0.take gi.bytes_used)).length)) rest).yielded,
               (fileChunks img g0 b0 (some (r -
                  (if r < (if gi.n = g0 then (data0.take gi.bytes_used).drop b0
                      else data0.take gi.bytes_used).length
                    then (if gi.n = g0 then (data0.take gi.bytes_used).drop b0
                      else data0.take gi.bytes_used).take r
                    else (if gi.n = g0 then (data0.take gi.bytes_used).drop b0
                      else data0.take gi.bytes_used)).length)) rest).error⟩ := by
            rw [fileChunks_cons]
            simp [hf, hskip, hp]
          rw [hres]
          set data2 := if gi.n = g0 then (data0.take gi.bytes_used).drop b0
            else data0.take gi.bytes_used with hdata2
          set data3 := if r < data2.length then data2.take r else data2 with hdata3
          have hlen3 : data3.length ≤ r := by
            rw [hdata3]
            split_ifs with htr
            · simp
            · omega
          have := ih (r - data3.length)
          simp only [List.map_cons, List.sum_cons]
          omega

/-- With offset 0 and a budget covering the whole logical size, the reader
yields one chunk per granule of exactly `bytes_used` bytes, and raises
nothing of its own. -/
theorem fileChunks_full {img : Image} :
    ∀ (gis : List GranuleInfo) (r : Nat),
      (∀ gi ∈ gis, gi.free = false ∧ gi.n < gmapLen img ∧ gi.sectors_used ≤ 9 ∧
        gi.bytes_used ≤ gi.sectors_used * 256) →
      (gis.map (fun gi => gi.bytes_used)).sum ≤ r →
      (fileChunks img 0 0 (some r) gis).error = none ∧
      (fileChunks img 0 0 (some r) gis).yielded.map List.length =
        gis.map (fun gi => gi.bytes_used) := by
  intro gis
  induction gis with
  | nil => intro r _ _; exact ⟨rfl, rfl⟩
  | cons gi rest ih =>
    intro r hinv hsum
    obtain ⟨hfree, hn, hsu, hbu⟩ := hinv gi (List.mem_cons_self _ _)
    simp only [List.map_cons, List.sum_cons] at hsum
    have hp := granuleData_ok hn hsu
    have hbu' : gi.bytes_used ≤ 256 * gi.sectors_used := by omega
    have hnr : ¬ r < gi.bytes_used := by omega
    have hlen0 : ((List.range (256 * gi.sectors_used)).map fun i =>
        img.byteAt ((granule_range_sectors gi.n).1 * 256 + i)).length =
        256 * gi.sectors_used := by simp
    rw [fileChunks_cons]
    simp only [hfree, hp, Bool.false_eq_true, if_false, ite_false, Nat.not_lt_zero,
      List.drop_zero, ite_self, List.length_take, hlen0, Nat.min_eq_left hbu', hnr]
    obtain ⟨he, hy⟩ := ih (r - gi.bytes_used)
      (fun g hg => hinv g (List.mem_cons_of_mem _ hg)) (by omega)
    refine ⟨he, ?_⟩
    simp only [List.map_cons, hy, List.length_take, hlen0, Nat.min_eq_left hbu',
      List.cons.injEq]

/-- A chain whose yielded granules are readable continuations followed by a
free terminal makes the reader fail on the `assert not gi.free` guard. -/
theorem fileChunks_free_tail {img : Image} {g0 b0 : Nat} {gf : GranuleInfo}
    (hgf : gf.free = true) :
    ∀ (ys : List GranuleInfo) (r : Nat),
      (∀ g ∈ ys, g.free = false ∧ g.n < gmapLen img ∧ g.sectors_used ≤ 9) →
      (fileChunks img g0 b0 (some r) (ys ++ [gf])).error = some .assertionError := by
  intro ys
  induction ys with
  | nil =>
    intro r _
    rw [List.nil_append, fileChunks_cons]
    simp [hgf]
  | cons g ys ih =>
    intro r hinv
    obtain ⟨hfree, hn, hsu⟩ := hinv g (List.mem_cons_self _ _)
    have hinv' : ∀ x ∈ ys, x.free = false ∧ x.n < gmapLen img ∧ x.sectors_used ≤ 9 :=
      fun x hx => hinv x (List.mem_cons_of_mem _ hx)
    rw [List.cons_append, fileChunks_cons]
    by_cases hskip : g.n < g0
    · simp only [hfree, Bool.false_eq_true, if_false, ite_false, hskip, if_true, ite_true]
      exact ih r hinv'
    · have hp := granuleData_ok hn hsu
      simp only [hfree, Bool.false_eq_true, if_false, ite_false, hskip, hp]
      exact ih _ hinv'

/-- Characterization of a successful directory-slot decode. -/
theorem DirectoryEntry.fromraw_fields {n : Nat} {raw : List Nat} {d : DirectoryEntry}
    (h : DirectoryEntry.fromraw n raw = .ok d) :
    d.n = n ∧ d.null = raw.all (· == 0) ∧
    d.free = ((raw.getD 0 1 == 0) || (raw.take 8).all (· == 0xff)) := by
  unfold DirectoryEntry.fromraw at h
  split_ifs at h
  injection h with h
  subst h
  exact ⟨rfl, rfl, rfl⟩

/-- A successful `dirStep` decodes the raw bytes of its own slot. -/
theorem dirStep_ok {img : Image} {i : Nat} {d : DirectoryEntry}
    (h : dirStep img i = .ok d) :
    d.n = i ∧ ∃ raw, read_directory_entry img i = .ok raw ∧
      DirectoryEntry.fromraw i raw = .ok d := by
  unfold dirStep at h
  cases hr : read_directory_entry img i with
  | error e => rw [hr] at h; exact absurd h (by simp)
  | ok raw =>
    rw [hr] at h
    exact ⟨(DirectoryEntry.fromraw_fields h).1, raw, rfl, h⟩

/-- One-step unfolding of the directory iteration. -/
theorem dirGo_succ (img : Image) (include_free : Bool) (fuel i : Nat) :
    dirGo img include_free (fuel + 1) i =
      match dirStep img i with
      | .error e => ⟨[], some e⟩
      | .ok dentry =>
        if dentry.null then dirGo img include_free fuel (i + 1)
        else if dentry.free && !include_free then dirGo img include_free fuel (i + 1)
        else ⟨dentry :: (dirGo img include_free fuel (i + 1)).yielded,
              (dirGo img include_free fuel (i + 1)).error⟩ := rfl

/-- Every entry the directory iteration yields comes from decoding its own
slot, is not null, is not free unless `include_free`, and sits at or after
the starting slot. -/
theorem dirGo_mem {img : Image} {include_free : Bool} :
    ∀ (fuel i : Nat) (d : DirectoryEntry),
      d ∈ (dirGo img include_free fuel i).yielded →
      i ≤ d.n ∧ d.null = false ∧ (include_free = false → d.free = false) ∧
      ∃ raw, read_directory_entry img d.n = .ok raw ∧
        DirectoryEntry.fromraw d.n raw = .ok d := by
  intro fuel
  induction fuel with
  | zero => intro i d hd; simp [dirGo] at hd
  | succ fuel ih =>
    intro i d hd
    rw [dirGo_succ] at hd
    cases hs : dirStep img i with
    | error e => rw [hs] at hd; simp at hd
    | ok dentry =>
      rw [hs] at hd
      obtain ⟨hdn, raw, hr, hf⟩ := dirStep_ok hs
      by_cases hnull : dentry.null
      · simp only [hnull, if_true, ite_true] at hd
        obtain ⟨hle, hrest⟩ := ih (i + 1) d hd
        exact ⟨by omega, hrest⟩
      · by_cases hskipf : dentry.free && !include_free
        · simp only [hnull, hskipf, if_true, if_false, ite_true, ite_false,
            Bool.false_eq_true] at hd
          obtain ⟨hle, hrest⟩ := ih (i + 1) d hd
          exact ⟨by omega, hrest⟩
        · simp only [hnull, hskipf, if_false, ite_false, Bool.false_eq_true,
            List.mem_cons] at hd
          rcases hd with rfl | hd
          · refine ⟨by omega, by simpa using hnull, ?_, raw, hdn ▸ hr, hdn ▸ hf⟩
            intro hif
            subst hif
            simpa using hskipf
          · obtain ⟨hle, hrest⟩ := ih (i + 1) d hd
            exact ⟨by omega, hrest⟩

/-- The directory iteration yields entries in strictly increasing slot
order. -/
theorem dirGo_sorted {img : Image} {include_free : Bool} :
    ∀ (fuel i : Nat),
      ((dirGo img include_free fuel i).yielded.map (fun d => d.n)).Pairwise (· < ·) := by
  intro fuel
  induction fuel with
  | zero => intro i; simp [dirGo]
  | succ fuel ih =>
    intro i
    rw [dirGo_succ]
    cases hs : dirStep img i with
    | error e => simp
    | ok dentry =>
      have hdn : dentry.n = i := (dirStep_ok hs).1
      by_cases hnull : dentry.null
      · simp only [hnull, if_true, ite_true]
        exact ih (i + 1)
      · by_cases hskipf : dentry.free && !include_free
        · simp only [hnull, hskipf, if_true, if_false, ite_true, ite_false,
            Bool.false_eq_true]
          exact ih (i + 1)
        · simp only [hnull, hskipf, if_false, ite_false, Bool.false_eq_true,
            List.map_cons]
          refine List.Pairwise.cons ?_ (ih (i + 1))
          intro m hm
          simp only [List.mem_map] at hm
          obtain ⟨d, hd, rfl⟩ := hm
          have := (dirGo_mem fuel (i + 1) d hd).1
          omega

/-- C1: the claimed write/lookup/read round-trip cannot happen on this
code: `write_new_file` always raises `NameError` — the first statement of
`_write_new_file` evaluates the name `length`, which is bound only in the
caller's scope — so no file is ever written. -/
theorem C1_write_new_file_always_raises (img : Image)
    (filename extension : List Nat) (filetype ascii_flag : Nat)
    (content : List Nat) :
    write_new_file img filename extension filetype ascii_flag content =
      .error (.nameError "length") := rfl

/-- C2: a read at `offset = logical_size` does not return zero bytes.  On
an image whose single-granule file lives in granule 5 (logical size 100,
as `get_file_sizes` confirms), `read(length=10, offset=100)` returns 10
bytes of file data, because `iter_file_contents` compares the physical
granule number `gi.n` with the offset-derived chain ordinal `g0`. -/
theorem C2_read_at_eof_returns_data :
    get_file_sizes imgSkew dSkew = .ok (100, 256, 9) ∧
    pread_file imgSkew dSkew (some 10) 100 = .ok (List.replicate 10 65) := by
  decide

/-- C4 counterexample: the allocation-map byte `0xCA` does not decode to a
terminal entry; `GranuleInfo.fromraw` treats it as corruption, because the
source's terminal range is `0xc0 <= b <= 0xc9`. -/
theorem C4_counterexample :
    GranuleInfo.fromraw 0 0xca 0 =
      .error (.recoverableCorruption "granule #0 corrupt: value 202 out of range") := by
  decide

/-- For bytes in the terminal range the low nibble is the distance from
`0xc0`. -/
theorem land15_eq {b : Nat} (h1 : 192 ≤ b) (h2 : b ≤ 201) :
    b &&& 15 = b - 192 := by
  interval_cases b <;> decide

/-- C4 (amended): the decoding table realized by `GranuleInfo.fromraw`:
`[0, 0xC0)` → continuation (next = value, 9 sectors, 2304 bytes);
`[0xC1, 0xC9]` → terminal with `sectors_used` = low nibble and
`bytes_used = (sectors_used-1)*256 + last_sector_bytes_used`;
`0xC0` → terminal with 0 sectors and 0 bytes, but only when
`last_sector_bytes_used = 0` (otherwise an `AssertionError`);
`[0xCA, 0xFE]` → `RecoverableCorruption` naming index and value;
`0xFF` → free. -/
theorem C4_decode_table_amended (n b lsbu : Nat) (hb : b < 256) :
    (b < 0xc0 → GranuleInfo.fromraw n b lsbu =
      .ok ⟨b, n, some b, 9, 2304, false, false⟩) ∧
    (0xc1 ≤ b → b ≤ 0xc9 → GranuleInfo.fromraw n b lsbu =
      .ok ⟨b, n, none, b - 0xc0, (b - 0xc1) * 256 + lsbu, true, false⟩) ∧
    (lsbu = 0 → GranuleInfo.fromraw n 0xc0 lsbu =
      .ok ⟨0xc0, n, none, 0, 0, true, false⟩) ∧
    (lsbu ≠ 0 → GranuleInfo.fromraw n 0xc0 lsbu = .error .assertionError) ∧
    (0xca ≤ b → b ≤ 0xfe → GranuleInfo.fromraw n b lsbu =
      .error (.recoverableCorruption
        ("granule #" ++ toString n ++ " corrupt: value " ++ toString b ++
          " out of range"))) ∧
    (GranuleInfo.fromraw n 0xff lsbu = .ok ⟨0xff, n, none, 0, 0, true, true⟩) := by
  refine ⟨?_, ?_, ?_, ?_, ?_, ?_⟩
  · intro h
    unfold GranuleInfo.fromraw
    rw [if_neg (show ¬ 256 ≤ b by omega), if_pos h]
    norm_num [sectors_per_granule, bytes_per_sector]
  · intro h1 h2
    have hland := land15_eq (show 192 ≤ b by omega) h2
    unfold GranuleInfo.fromraw
    simp only [sectors_per_granule, bytes_per_sector]
    rw [if_neg (show ¬ 256 ≤ b by omega), if_neg (show ¬ b < 192 by omega),
      if_pos h2, hland, if_neg (show ¬ 9 < b - 192 by omega),
      if_neg (show ¬ b - 192 = 0 by omega)]
    have hsub : b - 192 - 1 = b - 193 := by omega
    rw [hsub]
  · intro h
    subst h
    have hland : (192 : Nat) &&& 15 = 0 := by decide
    unfold GranuleInfo.fromraw
    norm_num [hland, sectors_per_granule]
  · intro h
    have hland : (192 : Nat) &&& 15 = 0 := by decide
    unfold GranuleInfo.fromraw
    norm_num [hland, h, sectors_per_granule]
  · intro h1 h2
    unfold GranuleInfo.fromraw
    rw [if_neg (show ¬ 256 ≤ b by omega), if_neg (show ¬ b < 192 by omega),
      if_neg (show ¬ b ≤ 201 by omega), if_neg (show ¬ b = 255 by omega)]
  · unfold GranuleInfo.fromraw
    norm_num

/-- C4 witness: byte `0xC3` with `last_sector_bytes_used = 100` decodes to
3 sectors and 612 bytes used; byte `0xFE` is a `RecoverableCorruption`
naming the offending granule index and value. -/
theorem C4_witness :
    GranuleInfo.fromraw 4 0xc3 100 =
      .ok ⟨0xc3, 4, none, 0xc3 - 0xc0, (0xc3 - 0xc1) * 256 + 100, true, false⟩ ∧
    GranuleInfo.fromraw 7 0xfe 3 =
      .error (.recoverableCorruption
        ("granule #" ++ toString 7 ++ " corrupt: value " ++ toString 254 ++
          " out of range")) :=
  ⟨(C4_decode_table_amended 4 0xc3 100 (by decide)).2.1 (by decide) (by decide),
   (C4_decode_table_amended 7 0xfe 3 (by decide)).2.2.2.2.1 (by decide) (by decide)⟩

/-- C7: `stats()` never returns.  `get_fs_stats` always raises `NameError`
because `size_in_granules=ceildiv(self.sector_count(), sectors_per_granule)`
reads the unbound module-level name `sectors_per_granule`; on the minimal
all-free image it raises exactly that. -/
theorem C7_get_fs_stats_raises_nameerror :
    (∀ img : Image, exceptIsOk (get_fs_stats img) = false) ∧
    get_fs_stats imgStd = .error (.nameError "sectors_per_granule") := by
  refine ⟨?_, by decide⟩
  intro img
  cases hcg : count_granules img with
  | error e => simp [get_fs_stats, exceptIsOk, hcg]
  | ok t =>
    cases hcd : count_directory_entries img with
    | error e => simp [get_fs_stats, exceptIsOk, hcg, hcd]
    | ok t2 =>
      cases hsc : sector_count img with
      | error e => simp [get_fs_stats, exceptIsOk, hcg, hcd, hsc]
      | ok sc => simp [get_fs_stats, exceptIsOk, hcg, hcd, hsc]

/-- C8: `granule_range_sectors` maps granule `g` to sectors
`[9g, 9g+9)` below the directory track and `[9g+18, 9g+27)` at or past
it, and no granule's sector range meets the directory track's sectors
`[306, 324)`. -/
theorem C8_extent_sector_span (g : Nat) :
    granule_range_sectors g = (if g * 9 < 306 then (g * 9, g * 9 + 9)
      else (g * 9 + 18, g * 9 + 27)) ∧
    ∀ s : Nat, (granule_range_sectors g).1 ≤ s → s < (granule_range_sectors g).2 →
      s < 306 ∨ 324 ≤ s := by
  have hgrs : granule_range_sectors g = if 306 ≤ g * 9 then (g * 9 + 18, g * 9 + 27)
      else (g * 9, g * 9 + 9) := by
    unfold granule_range_sectors
    simp only [sectors_per_granule, directory_track, sectors_per_track]
    split_ifs with hc
    · simp [Prod.mk.injEq]; omega
    · simp [Prod.mk.injEq]; omega
  constructor
  · rw [hgrs]
    split_ifs with h1 h2 h3 <;> first | rfl | omega
  · intro s hs1 hs2
    rw [hgrs] at hs1 hs2
    by_cases hc : 306 ≤ g * 9
    · rw [if_pos hc] at hs1 hs2
      have h1 : g * 9 + 18 ≤ s := hs1
      have h2 : s < g * 9 + 27 := hs2
      omega
    · rw [if_neg hc] at hs1 hs2
      have h1 : g * 9 ≤ s := hs1
      have h2 : s < g * 9 + 9 := hs2
      omega

/-- C8 witness: granule 40 occupies sectors `[378, 387)`, past the
directory track. -/
theorem C8_witness :
    (380 < 306 ∨ 324 ≤ 380) ∧ granule_range_sectors 40 = (378, 387) :=
  ⟨(C8_extent_sector_span 40).2 380 (by decide) (by decide), by decide⟩

/-- C6: the chain walk terminates (it never hits the artificial fuel
bound), yields each granule number at most once, stops at the first
terminal entry, and on the concrete cycle `5 → 9 → 5` raises
`RecoverableCorruption` right after yielding granule 9.  (The source spells
the loop message "loop in granule map"; the specification's glossary calls
the granule map the allocation map.) -/
theorem C6_walk_terminates_no_revisit (img : Image) (first lsbu : Nat) :
    (iter_granules img first lsbu).error ≠ some .fuelExhausted ∧
    ((iter_granules img first lsbu).yielded.map (fun gi => gi.n)).Nodup ∧
    (∀ gi ∈ (iter_granules img first lsbu).yielded, gi.last = true →
      (iter_granules img first lsbu).error = none ∧
      (iter_granules img first lsbu).yielded.getLast? = some gi) ∧
    iter_granules imgCyc 5 100 =
      ⟨[⟨9, 5, some 9, 9, 2304, false, false⟩, ⟨5, 9, some 5, 9, 2304, false, false⟩],
       some (.recoverableCorruption "loop in granule map")⟩ := by
  have hfuel := @chainGo_fuel img lsbu (gmapLen img + 1) [] first
    (by simp) (by simp) (by simp) (by simp)
  exact ⟨hfuel.1, hfuel.2.1,
    fun gi hg hl => (@chainGo_last img lsbu (gmapLen img + 1) [] first).2 gi hg hl,
    by decide⟩

/-- C6 witness: on the minimal all-free image the walk from granule 0
finishes without error, its terminal entry last. -/
theorem C6_witness :
    (iter_granules imgStd 0 0).error = none ∧
    (iter_granules imgStd 0 0).yielded.getLast? = some ⟨255, 0, none, 0, 0, true, true⟩ :=
  (C6_walk_terminates_no_revisit imgStd 0 0).2.2.1 ⟨255, 0, none, 0, 0, true, true⟩
    (by decide) (by decide)

/-- C9: enumeration with `include_free = false` yields only entries whose
raw 32 bytes are not all zero, whose first byte is not `0x00`, and whose
8-byte filename is not all `0xFF`; with `include_free = true` all-zero
(null) slots are still skipped, and entries come in strictly increasing
slot order. -/
theorem C9_enumerate_skips_null_and_free (img : Image) :
    (∀ d ∈ (iter_directory_entries img false).yielded,
      ∃ raw, read_directory_entry img d.n = .ok raw ∧
        DirectoryEntry.fromraw d.n raw = .ok d ∧
        raw.all (· == 0) = false ∧ raw.getD 0 1 ≠ 0 ∧
        (raw.take 8).all (· == 0xff) = false) ∧
    (∀ d ∈ (iter_directory_entries img true).yielded, d.null = false) ∧
    ((iter_directory_entries img true).yielded.map (fun d => d.n)).Pairwise (· < ·) := by
  refine ⟨?_, ?_, dirGo_sorted _ _⟩
  · intro d hd
    obtain ⟨hle, hnull, hfree, raw, hr, hf⟩ := dirGo_mem _ _ d hd
    have hfree' := hfree rfl
    obtain ⟨hdn, hnulleq, hfreeeq⟩ := DirectoryEntry.fromraw_fields hf
    rw [hnulleq] at hnull
    rw [hfreeeq] at hfree'
    simp only [Bool.or_eq_false_iff, beq_eq_false_iff_ne] at hfree'
    exact ⟨raw, hr, hf, hnull, hfree'.1, hfree'.2⟩
  · intro d hd
    exact (dirGo_mem _ _ d hd).2.1

/-- C9 witness: on a directory whose slot 0 holds a real entry and all
other slots are null, enumeration yields exactly that decoded entry. -/
theorem C9_witness :
    ∃ raw, read_directory_entry imgDir dDir.n = .ok raw ∧
      DirectoryEntry.fromraw dDir.n raw = .ok dDir ∧
      raw.all (· == 0) = false ∧ raw.getD 0 1 ≠ 0 ∧
      (raw.take 8).all (· == 0xff) = false :=
  (C9_enumerate_skips_null_and_free imgDir).1 dDir (by decide)

/-- C10: with an integral requested length `L`, a successful read returns
at most `L` bytes: each chunk is truncated to the remaining budget. -/
theorem C10_read_returns_at_most_requested (img : Image) (d : DirectoryEntry)
    (L offset : Nat) (bs : List Nat)
    (h : pread_file img d (some L) offset = .ok bs) : bs.length ≤ L := by
  have hy : (iter_file_contents img d (some L) offset).yielded =
      (fileChunks img (offset / (bytes_per_sector * sectors_per_granule))
        (offset % (bytes_per_sector * sectors_per_granule)) (some L)
        (iter_dentry_granules img d).yielded).yielded := by
    unfold iter_file_contents
    dsimp only
    split <;> rfl
  unfold pread_file at h
  dsimp only at h
  split at h
  · exact absurd h (by simp)
  · injection h with h
    rw [← h, List.length_flatten, hy]
    exact fileChunks_len _ _

/-- C10 witness: a 10-byte read of a 100-byte file returns exactly 10
bytes. -/
theorem C10_witness :
    pread_file imgSkew dSkew (some 10) 0 = .ok (List.replicate 10 65) ∧
    (List.replicate 10 65).length ≤ 10 :=
  ⟨by decide, C10_read_returns_at_most_requested imgSkew dSkew 10 0
    (List.replicate 10 65) (by decide)⟩

/-- The last element of a list ending in a singleton. -/
theorem getLast?_append_single {α : Type} (l : List α) (a : α) :
    (l ++ [a]).getLast? = some a := by
  induction l with
  | nil => rfl
  | cons b t ih => rw [List.cons_append]; exact getLast?_cons_some ih

/-- C3: on a chain that walks cleanly, contains no free entry and has
`last_sector_bytes_used ≤ 256`, a read at offset 0 whose requested length
covers the file returns exactly the logical size that `get_file_sizes`
reports — each granule contributes its `bytes_used`, not its padded
extent-aligned size. -/
theorem C3_full_read_returns_logical_size (img : Image) (d : DirectoryEntry)
    (L S bps alloc : Nat)
    (hlsbu : d.last_sector_bytes_used ≤ 256)
    (hchain : (iter_dentry_granules img d).error = none)
    (hfree : ∀ gi ∈ (iter_dentry_granules img d).yielded, gi.free = false)
    (hS : get_file_sizes img d = .ok (S, bps, alloc))
    (hL : S ≤ L) :
    ∃ bs, pread_file img d (some L) 0 = .ok bs ∧ bs.length = S := by
  have hSsum : S = ((iter_dentry_granules img d).yielded.map
      (fun gi => gi.bytes_used)).sum := by
    unfold get_file_sizes at hS
    dsimp only at hS
    rw [hchain] at hS
    injection hS with hS
    exact (congrArg Prod.fst hS).symm
  have hinv : ∀ gi ∈ (iter_dentry_granules img d).yielded, gi.free = false ∧
      gi.n < gmapLen img ∧ gi.sectors_used ≤ 9 ∧
      gi.bytes_used ≤ gi.sectors_used * 256 := by
    intro gi hgi
    obtain ⟨hn, b, hb⟩ := @chainGo_mem img d.last_sector_bytes_used
      (gmapLen img + 1) [] d.first_granule gi hgi
    obtain ⟨-, -, -, hsu, -, -, hbu⟩ := GranuleInfo.fromraw_ok hb
    exact ⟨hfree gi hgi, hn, hsu, hbu hlsbu⟩
  obtain ⟨hFerr, hFlen⟩ := fileChunks_full (iter_dentry_granules img d).yielded L hinv
    (by rw [← hSsum]; exact hL)
  refine ⟨(fileChunks img 0 0 (some L)
    (iter_dentry_granules img d).yielded).yielded.flatten, ?_, ?_⟩
  · have hg0 : 0 / (bytes_per_sector * sectors_per_granule) = 0 := Nat.zero_div _
    have hb0 : 0 % (bytes_per_sector * sectors_per_granule) = 0 := Nat.zero_mod _
    unfold pread_file iter_file_contents
    dsimp only
    rw [hg0, hb0, hFerr, hchain]
  · rw [List.length_flatten, hFlen, ← hSsum]

/-- C3 witness: a one-granule file of logical size 5 read with length 10
at offset 0 returns 5 bytes. -/
theorem C3_witness :
    (iter_dentry_granules imgOrigin dOrigin).error = none ∧
    ∃ bs, pread_file imgOrigin dOrigin (some 10) 0 = .ok bs ∧ bs.length = 5 :=
  ⟨by decide,
   C3_full_read_returns_logical_size imgOrigin dOrigin 10 5 256 9 (by decide)
     (by decide) (by decide) (by decide) (by decide)⟩

/-- C5 counterexample: on a map whose chain is granule 0 (continuation)
into granule 1 marked free (`0xFF`), the walk reaches the free entry
mid-chain yet finishes with no error at all — it does not raise
`RecoverableCorruption`. -/
theorem C5_counterexample :
    (iter_granules imgFree 0 100).yielded.map (fun gi => (gi.n, gi.free)) =
      [(0, false), (1, true)] ∧
    (iter_granules imgFree 0 100).error = none := by
  decide

/-- C5 (amended): a chain that reaches a free (`0xFF`) entry yields it as
a terminal element and the walk succeeds (the free entry is decoded with
`last = True`); a subsequent content read over such a chain then fails
with `AssertionError` — the `assert not gi.free` guard — not with
`RecoverableCorruption`. -/
theorem C5_free_treated_as_terminal (img : Image) (first lsbu L offset : Nat)
    (gi : GranuleInfo) (hmem : gi ∈ (iter_granules img first lsbu).yielded)
    (hfree : gi.free = true) :
    (iter_granules img first lsbu).error = none ∧
    (iter_granules img first lsbu).yielded.getLast? = some gi ∧
    ∀ d : DirectoryEntry, d.first_granule = first → d.last_sector_bytes_used = lsbu →
      pread_file img d (some L) offset = .error .assertionError := by
  obtain ⟨hn, b, hb⟩ := @chainGo_mem img lsbu
    (gmapLen img + 1) [] first gi hmem
  have hlast : gi.last = true := (GranuleInfo.fromraw_ok hb).2.2.2.2.1 hfree
  obtain ⟨herr, hgetlast⟩ :=
    (@chainGo_last img lsbu (gmapLen img + 1) [] first).2 gi hmem hlast
  refine ⟨herr, hgetlast, ?_⟩
  obtain ⟨ys, g, hys, hg, hns⟩ :=
    (@chainGo_last img lsbu (gmapLen img + 1) [] first).1 herr
  have hgeq : g = gi := by
    have h1 : (granuleChainGo img lsbu (gmapLen img + 1) [] first).yielded.getLast? =
        some g := by
      rw [hys]
      exact getLast?_append_single _ _
    rw [h1] at hgetlast
    injection hgetlast
  subst hgeq
  have hysinv : ∀ x ∈ ys, x.free = false ∧ x.n < gmapLen img ∧ x.sectors_used ≤ 9 := by
    intro x hx
    have hxmem : x ∈ (granuleChainGo img lsbu (gmapLen img + 1) [] first).yielded := by
      rw [hys]
      exact List.mem_append_left _ hx
    obtain ⟨hxn, bx, hbx⟩ := @chainGo_mem img lsbu
      (gmapLen img + 1) [] first x hxmem
    obtain ⟨-, -, -, -, -, hlastc, -⟩ := GranuleInfo.fromraw_ok hbx
    obtain ⟨hsu9, -, hfreex, -⟩ := hlastc (hns x hx)
    exact ⟨hfreex, hxn, by omega⟩
  intro d hd1 hd2
  have hchainq : (iter_dentry_granules img d).yielded = ys ++ [g] := by
    unfold iter_dentry_granules
    rw [hd1, hd2]
    exact hys
  have hferr := @fileChunks_free_tail img
    (offset / (bytes_per_sector * sectors_per_granule))
    (offset % (bytes_per_sector * sectors_per_granule))
    g hfree ys L hysinv
  unfold pread_file iter_file_contents
  dsimp only
  rw [hchainq, hferr]

/-- C5 witness: the walk on the continuation-into-free map succeeds, and
reading through it fails with `AssertionError`. -/
theorem C5_witness :
    (iter_granules imgFree 0 100).error = none ∧
    pread_file imgFree dFree (some 10) 0 = .error .assertionError := by
  have h := C5_free_treated_as_terminal imgFree 0 100 10 0
    ⟨255, 1, none, 0, 0, true, true⟩ (by decide) (by decide)
  exact ⟨h.1, h.2.2 dFree rfl rfl⟩
